import Mathlib

/-!
Verification of `pkg/sbctl/compatibility.go` (the resource decoder of the
sbctl offline Kubernetes API emulator): `Decode`, `wrapListData` and
`SortUnstructuredList`, shallowly embedded in Lean.

Modelling conventions, stated once here:

* Byte payloads are modelled by `ByteData`: either bytes that parse as a
  JSON value (`ByteData.json j`), or bytes that are not valid JSON
  (`ByteData.invalid raw`), e.g. empty input, malformed JSON, or YAML.
* The Kubernetes scheme codec `scheme.Codecs.UniversalDeserializer().Decode`
  is third-party library code; it is abstracted as the `typedDecode` field
  of a `DecodeEnv`.  `none` stands for the Go triple `(nil, nil, err)` with
  a non-nil error, `some (o, gvk)` for `(o, &gvk, nil)`.  Theorems about
  `Decode` quantify over the environment; concrete demonstration
  environments are used to instantiate them.
* `json.Unmarshal` into `unstructured.Unstructured` runs the custom
  `UnmarshalJSON` of apimachinery, which decodes through
  `UnstructuredJSONScheme` and fails with a missing-kind error when the
  decoded object has an empty `kind`; unmarshalling into
  `[]unstructured.Unstructured` applies that per element.  Both are
  modelled concretely below (`unstructuredUnmarshal`,
  `unstructuredListUnmarshal`).
* `metav1.Time` creation timestamps are captured RFC3339 UTC strings; on
  such strings lexicographic order coincides with chronological order, so
  timestamps are modelled as the raw strings ordered lexicographically,
  with the missing / zero timestamp as `""` (the least string).
-/

/-- JSON values: the denotation of a byte payload that `json.Unmarshal`
accepts.  Objects are association lists of fields (Go decodes them into
`map[string]interface{}`; keys are unique in any JSON document). -/
inductive Json where
  | null : Json
  | bool (b : Bool) : Json
  | num (n : Int) : Json
  | str (s : String) : Json
  | arr (elements : List Json) : Json
  | obj (fields : List (String × Json)) : Json

/-- A byte payload handed to `Decode`: either valid JSON denoting `j`, or
bytes that no JSON parse accepts (empty input, truncated JSON, YAML, ...). -/
inductive ByteData where
  | json (j : Json) : ByteData
  | invalid (raw : String) : ByteData

/-- `schema.GroupVersionKind`. -/
structure GroupVersionKind where
  group : String := ""
  version : String := ""
  kind : String := ""

/-- `schema.GroupVersion.String()`: `group + "/" + version` when the group
is non-empty, else just `version`. -/
def GroupVersionKind.groupVersionString (g : GroupVersionKind) : String :=
  if g.group = "" then g.version else g.group ++ "/" ++ g.version

/-- First-match lookup in a JSON object's field list (Go map access). -/
def lookupField : List (String × Json) → String → Option Json
  | [], _ => none
  | (k', v) :: rest, k => if k' = k then some v else lookupField rest k

/-- `unstructured.NestedString`-style access: a missing or non-string field
reads as `""`. -/
def getStringField (fields : List (String × Json)) (k : String) : String :=
  match lookupField fields k with
  | some (.str s) => s
  | _ => ""

/-- Replace the value of a key in an object's field list, or append it
(Go map assignment). -/
def setField : List (String × Json) → String → Json → List (String × Json)
  | [], k, v => [(k, v)]
  | (k', v') :: rest, k, v =>
      if k' = k then (k, v) :: rest else (k', v') :: setField rest k v

/-- `unstructured.Unstructured`: an untyped object backed by its JSON
field map. -/
structure Unstructured where
  object : List (String × Json)

/-- `u.GetKind()`. -/
def getKindU (u : Unstructured) : String := getStringField u.object "kind"

/-- `u.GetAPIVersion()`. -/
def getAPIVersionU (u : Unstructured) : String := getStringField u.object "apiVersion"

/-- A nested string under `metadata` (missing levels read as `""`). -/
def getMetadataField (u : Unstructured) (k : String) : String :=
  match lookupField u.object "metadata" with
  | some (.obj m) => getStringField m k
  | _ => ""

/-- `u.GetCreationTimestamp()`, as the raw RFC3339 string; missing or
non-string timestamps are the zero time `""`. -/
def getCreationTimestamp (u : Unstructured) : String :=
  getMetadataField u "creationTimestamp"

/-- `u.GetName()`. -/
def getNameU (u : Unstructured) : String := getMetadataField u "name"

/-- `u.GetNamespace()`. -/
def getNamespaceU (u : Unstructured) : String := getMetadataField u "namespace"

/-- Split a character list at every slash (structurally recursive, so it
computes by definitional reduction; `String.splitOn` is defined by
well-founded recursion and would not). -/
def splitSlash : List Char → List (List Char)
  | [] => [[]]
  | c :: cs =>
      let rest := splitSlash cs
      if c = '/' then [] :: rest
      else match rest with
      | [] => [[c]]
      | r :: rs => (c :: r) :: rs

/-- `schema.ParseGroupVersion`: `""` and `"/"` give the empty group/version;
one path segment is a bare version; two are group and version; more is an
error (`none`). -/
def parseGroupVersion (gv : String) : Option (String × String) :=
  if gv = "" ∨ gv = "/" then some ("", "")
  else match (splitSlash gv.data).map List.asString with
  | [v] => some ("", v)
  | [g, v] => some (g, v)
  | _ => none

/-- `schema.FromAPIVersionAndKind`: on a parse error of `apiVersion` only
the kind is kept. -/
def fromAPIVersionAndKind (apiVersion kind : String) : GroupVersionKind :=
  match parseGroupVersion apiVersion with
  | some (g, v) => { group := g, version := v, kind := kind }
  | none => { kind := kind }

/-- `u.GetObjectKind().GroupVersionKind()` for an unstructured object. -/
def gvkOfUnstructured (u : Unstructured) : GroupVersionKind :=
  fromAPIVersionAndKind (getAPIVersionU u) (getKindU u)

/-- `unstructured.UnstructuredList`: untyped envelope fields plus items. -/
structure UnstructuredList where
  object : List (String × Json) := []
  items : List Unstructured := []

/-- The `kind` field of an untyped list's envelope. -/
def getKindList (l : UnstructuredList) : String := getStringField l.object "kind"

/-- `UnstructuredList.SetGroupVersionKind`: sets `apiVersion` to
`gvk.GroupVersion().String()` and `kind` to `gvk.Kind` on the envelope. -/
def setListGroupVersionKind (l : UnstructuredList) (gvk : GroupVersionKind) :
    UnstructuredList :=
  { l with
    object := setField (setField l.object "apiVersion" (.str gvk.groupVersionString)) "kind" (.str gvk.kind) }

/-- `metav1.TypeMeta` of a typed list item. -/
structure TypeMeta where
  kind : String := ""
  apiVersion : String := ""

/-- The `metav1.ObjectMeta` fields relevant here.  `nspace` is the Go
`Namespace` field (`namespace` is a Lean keyword). -/
structure ObjectMeta where
  name : String := ""
  nspace : String := ""
  creationTimestamp : String := ""

/-- One item of a typed Kubernetes list: its type metadata, its object
metadata, and `rest`, the remaining payload of the item (spec, status, ...),
which the decoder never touches. -/
structure Item where
  typeMeta : TypeMeta := {}
  metadata : ObjectMeta := {}
  rest : Json := .null

/-- `metav1.ListMeta` (the fields relevant here). -/
structure ListMeta where
  resourceVersion : String := ""

/-- The common shape of a decoded typed Kubernetes list
(`corev1.PodList`, `appsv1.DeploymentList`, ...). -/
structure TypedList where
  typeMeta : TypeMeta := {}
  metadata : ListMeta := {}
  items : List Item := []

/-- A decoded `runtime.Object`: one constructor per typed list kind that
the stamping switch of `Decode` matches on (in source order), plus any
other typed object, plus the untyped shapes. -/
inductive KObject where
  | eventList (l : TypedList)
  | podList (l : TypedList)
  | limitRangeList (l : TypedList)
  | serviceList (l : TypedList)
  | namespaceList (l : TypedList)
  | nodeList (l : TypedList)
  | persistentVolumeList (l : TypedList)
  | persistentVolumeClaimList (l : TypedList)
  | jobList (l : TypedList)
  | cronJobList (l : TypedList)
  | deploymentList (l : TypedList)
  | replicaSetList (l : TypedList)
  | statefulSetList (l : TypedList)
  | storageClassList (l : TypedList)
  | customResourceDefinitionList (l : TypedList)
  | configMapList (l : TypedList)
  | typedObject (typeMeta : TypeMeta) (body : Json)
  | unstructured (u : Unstructured)
  | unstructuredList (l : UnstructuredList)

/-- `item.GetObjectKind().SetGroupVersionKind(gvk)`: overwrites the item's
`TypeMeta` with `gvk.Kind` and `gvk.GroupVersion().String()`. -/
def setItemGroupVersionKind (gvk : GroupVersionKind) (it : Item) : Item :=
  { it with typeMeta := { kind := gvk.kind, apiVersion := gvk.groupVersionString } }

/-- The loop body shared by every case of the stamping switch:
`for i := range o.Items { o.Items[i].GetObjectKind().SetGroupVersionKind(gvk) }`. -/
def stampList (gvk : GroupVersionKind) (l : TypedList) : TypedList :=
  { l with items := l.items.map (setItemGroupVersionKind gvk) }

/-- The GVK-stamping switch of `Decode` (compatibility.go lines 74-194):
for each matched typed list kind, every item's GVK is overwritten with the
constant of that case; any other object passes through unchanged.  Note
the `CustomResourceDefinitionList` case stamps the items with the plural
kind `"CustomResourceDefinitionList"`, exactly as the source does. -/
def stampGVK : KObject → KObject
  | .eventList l => .eventList (stampList { kind := "Event", version := "v1" } l)
  | .podList l => .podList (stampList { kind := "Pod", version := "v1" } l)
  | .limitRangeList l => .limitRangeList (stampList { kind := "LimitRange", version := "v1" } l)
  | .serviceList l => .serviceList (stampList { kind := "Service", version := "v1" } l)
  | .namespaceList l => .namespaceList (stampList { kind := "Namespace", version := "v1" } l)
  | .nodeList l => .nodeList (stampList { kind := "Node", version := "v1" } l)
  | .persistentVolumeList l => .persistentVolumeList (stampList { kind := "PersistentVolume", version := "v1" } l)
  | .persistentVolumeClaimList l => .persistentVolumeClaimList (stampList { kind := "PersistentVolumeClaim", version := "v1" } l)
  | .jobList l => .jobList (stampList { group := "batch", kind := "Job", version := "v1" } l)
  | .cronJobList l => .cronJobList (stampList { group := "batch", kind := "CronJob", version := "v1beta1" } l)
  | .deploymentList l => .deploymentList (stampList { group := "apps", kind := "Deployment", version := "v1" } l)
  | .replicaSetList l => .replicaSetList (stampList { group := "apps", kind := "ReplicaSet", version := "v1" } l)
  | .statefulSetList l => .statefulSetList (stampList { group := "apps", kind := "StatefulSet", version := "v1" } l)
  | .storageClassList l => .storageClassList (stampList { group := "storage.k8s.io", kind := "StorageClass", version := "v1" } l)
  | .customResourceDefinitionList l => .customResourceDefinitionList (stampList { group := "apiextensions.k8s.io", kind := "CustomResourceDefinitionList", version := "v1" } l)
  | .configMapList l => .configMapList (stampList { kind := "ConfigMap", version := "v1" } l)
  | o => o

/-- `json.Unmarshal` of one JSON value into `unstructured.Unstructured`:
the custom `UnmarshalJSON` decodes via `UnstructuredJSONScheme`, which
unmarshals into a map (failing on non-objects) and then rejects any object
whose decoded `kind` is empty with a missing-kind error.  `null` leaves
the map empty, so it also fails the kind check. -/
def unstructuredFromJson : Json → Except String Unstructured
  | .obj fields =>
      if getKindU ⟨fields⟩ = "" then .error "Object kind is missing"
      else .ok ⟨fields⟩
  | .null => .error "Object kind is missing"
  | _ => .error "cannot unmarshal value into map"

/-- `json.Unmarshal(originalData, &v)` with `v unstructured.Unstructured`. -/
def unstructuredUnmarshal : ByteData → Except String Unstructured
  | .json j => unstructuredFromJson j
  | .invalid _ => .error "invalid character in input"

/-- `json.Unmarshal(originalData, &vList)` with
`vList []unstructured.Unstructured`: a JSON array is decoded element by
element through `Unstructured.UnmarshalJSON` (first failure aborts);
`null` leaves the slice nil without error; other shapes fail. -/
def unstructuredListUnmarshal : ByteData → Except String (List Unstructured)
  | .json (.arr xs) => xs.mapM unstructuredFromJson
  | .json .null => .ok []
  | .json _ => .error "cannot unmarshal value into slice"
  | .invalid _ => .error "invalid character in input"

/-- The recognized-resource table of `wrapListData` (compatibility.go lines
201-255): resource hint to synthesized `(kind, apiVersion)`.  The Go
`switch` is a sequential string comparison; the `"ingress", "ingresses"`
case is the two-way disjunction. -/
def wrapKind (resource : String) : Option (String × String) :=
  if resource = "pods" then some ("PodList", "v1")
  else if resource = "events" then some ("EventList", "v1")
  else if resource = "cronjobs" then some ("CronJobList", "batch/v1beta1")
  else if resource = "deployments" then some ("DeploymentList", "apps/v1")
  else if resource = "ingress" ∨ resource = "ingresses" then
    some ("IngressList", "networking.k8s.io/v1")
  else if resource = "jobs" then some ("JobList", "batch/v1")
  else if resource = "limitranges" then some ("LimitRangeList", "v1")
  else if resource = "pvcs" then some ("PersistentVolumeClaimList", "v1")
  else if resource = "replicasets" then some ("ReplicaSetList", "apps/v1")
  else if resource = "services" then some ("ServiceList", "v1")
  else if resource = "statefulsets" then some ("StatefulSetList", "apps/v1")
  else if resource = "namespaces" then some ("NamespaceList", "v1")
  else if resource = "nodes" then some ("NodeList", "v1")
  else if resource = "persistentvolumes" then some ("PersistentVolumeList", "v1")
  else if resource = "persistentvolumeclaims" then some ("PersistentVolumeClaimList", "v1")
  else if resource = "storageclasses" then some ("StorageClassList", "storage.k8s.io/v1")
  else if resource = "customresourcedefinitions" then
    some ("CustomResourceDefinitionList", "apiextensions.k8s.io/v1")
  else none

/-- The exact list envelope `wrapListData` renders with `fmt.Sprintf`
(braces written as `\x7b`/`\x7d`): the payload is spliced verbatim into
the `items` position and `metadata.resourceVersion` is the constant `"1"`. -/
def listEnvelope (kind apiVersion data : String) : String :=
  "\x7b\n\t\t\"kind\": \"" ++ kind ++ "\",\n\t\t\"apiVersion\": \"" ++ apiVersion ++
    "\",\n\t\t\"metadata\": \x7b\n\t\t\t\"resourceVersion\": \"1\"\n\t\t\x7d,\n\t\t\"items\": " ++
    data ++ "\n\t\x7d"

/-- `wrapListData(resource, data)` (compatibility.go lines 199-265).  The
unrecognized-hint error in Go reads `don't know how to wrap %s`; it is
rendered here without the apostrophe. -/
def wrapListData (resource data : String) : Except String String :=
  match wrapKind resource with
  | some (kind, apiVersion) => .ok (listEnvelope kind apiVersion data)
  | none => .error ("do not know how to wrap " ++ resource)

/-- The JSON value denoted by the bytes `wrapListData` produces when the
payload denotes `j`. -/
def wrapListJson (kind apiVersion : String) (j : Json) : Json :=
  .obj [("kind", .str kind), ("apiVersion", .str apiVersion),
        ("metadata", .obj [("resourceVersion", .str "1")]),
        ("items", j)]

/-- `wrapListData` at the level of payload denotations: a recognized hint
wraps a JSON payload into the synthesized envelope; splicing a non-JSON
payload into the envelope yields non-JSON bytes (the payload sits in a
JSON value position of the rendered text). -/
def wrapListByteData (resource : String) (data : ByteData) : Except String ByteData :=
  match wrapKind resource with
  | some (kind, apiVersion) =>
      match data with
      | .json j => .ok (.json (wrapListJson kind apiVersion j))
      | .invalid raw => .ok (.invalid (listEnvelope kind apiVersion raw))
  | none => .error ("do not know how to wrap " ++ resource)

/-- The environment of `Decode`: the scheme codec
`scheme.Codecs.UniversalDeserializer().Decode` abstracted as a function
(`none` = decode error with nil object, `some` = success). -/
structure DecodeEnv where
  typedDecode : ByteData → Option (KObject × GroupVersionKind)

/-- The Go triple returned by `Decode`: `(runtime.Object, *schema.GroupVersionKind, error)`,
each component possibly nil. -/
structure DecodeResult where
  obj : Option KObject
  gvk : Option GroupVersionKind
  err : Option String

/-- `errors.Wrap` from github.com/pkg/errors: wrapping a nil error returns
nil; wrapping a non-nil error prefixes the message. -/
def errWrap (msg : String) : Option String → Option String
  | none => none
  | some e => some (msg ++ ": " ++ e)

/-- Strategy 2 of `Decode`: wrap the payload for the resource hint and, if
that succeeded, run the typed decoder on the wrapped bytes (a wrap error is
only logged). -/
def wrappedDecode (env : DecodeEnv) (resource : String) (data : ByteData) :
    Option (KObject × GroupVersionKind) :=
  match wrapListByteData resource data with
  | .ok wrapped => env.typedDecode wrapped
  | .error _ => none

/-- The untyped list built by strategy 4 (compatibility.go lines 63-65):
a fresh `UnstructuredList`, its envelope GVK set to the given one, and the
decoded elements appended to its (empty) items. -/
def fallbackList (gvk : GroupVersionKind) (vList : List Unstructured) :
    UnstructuredList :=
  let list : UnstructuredList := {}
  let list := setListGroupVersionKind list gvk
  { list with items := list.items ++ vList }

/-- `Decode(resource, data)` (compatibility.go lines 27-197).

The outer `Option` models Go panic-freedom: `none` would mean a runtime
panic.  The only partial operation in the source is the index `vList[0]`,
modelled by `vList[0]?` with `none` mapped to a panic; everything else is
total.  Control flow, mirroring the source:

1. typed decode of the raw bytes; on success return it (no stamping);
2. wrap via `wrapListData` and retry the typed decode; on success return
   the result with the stamping switch applied;
3. if no typed decode produced an object, unmarshal into an untyped
   object; on success return it with its own GVK;
4. unmarshal into an untyped array; if that succeeds with a non-empty
   slice, wrap into an `UnstructuredList` carrying the first element's GVK;
5. otherwise return `(nil, nil, errors.Wrap(err, ...))` where `err` is the
   error of step 4 - which is nil when step 4 succeeded with an empty
   slice, so the wrap is nil as well. -/
def Decode (env : DecodeEnv) (resource : String) (data : ByteData) :
    Option DecodeResult :=
  match env.typedDecode data with
  | some (decoded, gvk) => some ⟨some decoded, some gvk, none⟩
  | none =>
    match wrappedDecode env resource data with
    | some (decoded, gvk) => some ⟨some (stampGVK decoded), some gvk, none⟩
    | none =>
      match unstructuredUnmarshal data with
      | .ok v => some ⟨some (.unstructured v), some (gvkOfUnstructured v), none⟩
      | .error _ =>
        match unstructuredListUnmarshal data with
        | .ok vList =>
          if vList.length > 0 then
            match vList[0]? with
            | some v0 =>
                some ⟨some (.unstructuredList (fallbackList (gvkOfUnstructured v0) vList)),
                  some (gvkOfUnstructured v0), none⟩
            | none => none
          else
            some ⟨none, none, errWrap "could not decode data into a k8s object" none⟩
        | .error e =>
            some ⟨none, none, errWrap "could not decode data into a k8s object" (some e)⟩

/-- Strict lexicographic order on character lists, as a structurally
recursive Bool function (so it evaluates by definitional reduction; the
library order on `String` is decided through the well-founded `String.ltb`
and does not).  On the character lists of RFC3339 UTC timestamps this is
chronological order, with the zero time `""` least. -/
def charListLt : List Char → List Char → Bool
  | [], [] => false
  | [], _ :: _ => true
  | _ :: _, [] => false
  | a :: as, b :: bs =>
      if a < b then true else if b < a then false else charListLt as bs

/-- The comparator of `SortUnstructuredList`: strict `Before` on the two
items' creation timestamps, and nothing else. -/
def uBefore (a b : Unstructured) : Bool :=
  charListLt (getCreationTimestamp a).data (getCreationTimestamp b).data

/-- One step of Go's insertion sort: place `x` into the already-sorted
prefix, before the first element strictly greater than it (so after any
elements it ties with). -/
def orderedInsertGo (x : Unstructured) : List Unstructured → List Unstructured
  | [] => [x]
  | y :: ys => if uBefore x y then x :: y :: ys else y :: orderedInsertGo x ys

/-- `sort.Slice(list.Items, less)` with the timestamp comparator.  Go's
`sort.Slice` dispatches to its insertion sort for ranges of at most 12
elements (`maxInsertion`); this model is that insertion sort, written
functionally (fold the elements left to right into a sorted accumulator).
`sort.Slice` makes no stability promise in general. -/
def sortSliceGo (l : List Unstructured) : List Unstructured :=
  l.foldl (fun acc x => orderedInsertGo x acc) []

/-- `SortUnstructuredList` (compatibility.go lines 285-291), returning the
sorted list instead of mutating in place. -/
def SortUnstructuredList (list : UnstructuredList) : UnstructuredList :=
  { list with items := sortSliceGo list.items }

/-! ## Demonstration environments and payloads

Concrete stand-ins for the scheme codec, used to instantiate the
environment-parametric theorems.  `envNone` models the codec on inputs it
rejects (no registered kind can be found).  `demoTypedDecode` models a
registry with `PodList` registered: a JSON object whose `kind` is
`"PodList"` and `apiVersion` is `"v1"` decodes to a typed `podList`. -/

def envNone : DecodeEnv := ⟨fun _ => none⟩

/-- The typed item a demo decode produces from an item's JSON: `TypeMeta`
from the item's own `kind`/`apiVersion` fields, metadata from `metadata`,
and the whole JSON kept as the untouched remainder. -/
def demoItemOfJson : Json → Item
  | .obj fields =>
      { typeMeta := { kind := getStringField fields "kind",
                      apiVersion := getStringField fields "apiVersion" }
        metadata :=
          match lookupField fields "metadata" with
          | some (.obj m) => { name := getStringField m "name",
                               nspace := getStringField m "namespace",
                               creationTimestamp := getStringField m "creationTimestamp" }
          | _ => {}
        rest := .obj fields }
  | j => { rest := j }

/-- A demo scheme registry knowing exactly `PodList` (`v1`). -/
def demoTypedDecode : ByteData → Option (KObject × GroupVersionKind)
  | .json (.obj fields) =>
      match lookupField fields "kind", lookupField fields "apiVersion",
            lookupField fields "items" with
      | some (.str "PodList"), some (.str "v1"), some (.arr xs) =>
          some (.podList
            { typeMeta := { kind := "PodList", apiVersion := "v1" }
              metadata :=
                match lookupField fields "metadata" with
                | some (.obj m) => { resourceVersion := getStringField m "resourceVersion" }
                | _ => {}
              items := xs.map demoItemOfJson },
            { group := "", version := "v1", kind := "PodList" })
      | _, _, _ => none
  | _ => none

def demoEnv : DecodeEnv := ⟨demoTypedDecode⟩

/-- A captured pod item without a type envelope, as support bundles store
them. -/
def demoPodJson : Json := .obj [("metadata", .obj [("name", .str "web-0")])]

/-- A bare-array pod file: `[{"metadata":{"name":"web-0"}}]`. -/
def demoPayload : Json := .arr [demoPodJson]

def demoData : ByteData := .json demoPayload

def demoWrapped : ByteData := .json (wrapListJson "PodList" "v1" demoPayload)

/-- What `demoTypedDecode` yields on the wrapped demo payload. -/
def demoDecoded : KObject :=
  .podList
    { typeMeta := { kind := "PodList", apiVersion := "v1" }
      metadata := { resourceVersion := "1" }
      items := [demoItemOfJson demoPodJson] }

def demoGVK : GroupVersionKind := { group := "", version := "v1", kind := "PodList" }

/-! ## Claim theorems -/

/-- C1: `Decode` tries its strategies in order - (1) strict typed decode
of the raw bytes, returned as is on success; (2) only on failure of (1)
and only when the hint wraps, strict typed decode of the wrapped payload,
returned (with the stamping switch applied) on success; (3) only when no
typed decode produced an object, untyped-object decoding; (4) only on
failure of (3), untyped-array decoding; the first success is returned and
no later strategy is consulted. -/
theorem decode_strategy_order (env : DecodeEnv) (resource : String) (data : ByteData) :
    (∀ o gvk, env.typedDecode data = some (o, gvk) →
      Decode env resource data = some ⟨some o, some gvk, none⟩)
  ∧ (∀ o gvk w, env.typedDecode data = none →
      wrapListByteData resource data = .ok w →
      env.typedDecode w = some (o, gvk) →
      Decode env resource data = some ⟨some (stampGVK o), some gvk, none⟩)
  ∧ (∀ u, env.typedDecode data = none →
      wrappedDecode env resource data = none →
      unstructuredUnmarshal data = .ok u →
      Decode env resource data = some ⟨some (.unstructured u), some (gvkOfUnstructured u), none⟩)
  ∧ (∀ e v vs, env.typedDecode data = none →
      wrappedDecode env resource data = none →
      unstructuredUnmarshal data = .error e →
      unstructuredListUnmarshal data = .ok (v :: vs) →
      Decode env resource data =
        some ⟨some (.unstructuredList (fallbackList (gvkOfUnstructured v) (v :: vs))),
          some (gvkOfUnstructured v), none⟩) := by
  refine ⟨?_, ?_, ?_, ?_⟩
  · intro o gvk h1
    unfold Decode
    rw [h1]
  · intro o gvk w h1 h2 h3
    have h2' : wrappedDecode env resource data = some (o, gvk) := by
      unfold wrappedDecode
      simp only [h2, h3]
    unfold Decode
    rw [h1, h2']
  · intro u h1 h2 h3
    unfold Decode
    rw [h1, h2, h3]
  · intro e v vs h1 h2 h3 h4
    unfold Decode
    rw [h1, h2, h3, h4]
    simp [fallbackList]

/-- Witness for C1 at a concrete input: the bare-array pod payload fails
the raw typed decode, wraps for hint `"pods"`, and the wrapped payload
typed-decodes, so the stamped strategy-2 result is returned. -/
theorem decode_strategy_order_witness :
    Decode demoEnv "pods" demoData = some ⟨some (stampGVK demoDecoded), some demoGVK, none⟩ :=
  (decode_strategy_order demoEnv "pods" demoData).2.1 demoDecoded demoGVK demoWrapped rfl rfl rfl

/-- C8: the stamping pass is idempotent - stamping an already-stamped
object overwrites each item's GVK with the same constant. -/
theorem stampGVK_idempotent (o : KObject) : stampGVK (stampGVK o) = stampGVK o := by
  cases o <;>
    simp [stampGVK, stampList, List.map_map, Function.comp, setItemGroupVersionKind]

/-- C9 (amended): `Decode` never panics - for every environment, resource
hint and byte payload (empty, malformed and oddly shaped ones included) it
returns normally; in particular the one index access `vList[0]` is reached
only under the `len(vList) > 0` guard.  (The original claim's stronger
conclusion - that the normal return always carries a decoded object or an
error - is false; see the counterexample below.) -/
theorem decode_never_panics (env : DecodeEnv) (resource : String) (data : ByteData) :
    (Decode env resource data).isSome := by
  unfold Decode
  cases h1 : env.typedDecode data with
  | some p => rfl
  | none =>
    cases h2 : wrappedDecode env resource data with
    | some p => rfl
    | none =>
      cases h3 : unstructuredUnmarshal data with
      | ok u => rfl
      | error e =>
        cases h4 : unstructuredListUnmarshal data with
        | error e2 => rfl
        | ok vList =>
          cases vList with
          | nil => rfl
          | cons v vs => simp

/-- C9 counterexample: on the JSON `null` payload with an unrecognized
resource hint, `Decode` does return normally - but with neither a decoded
object nor an error: every strategy fails, yet the untyped-array unmarshal
of `null` leaves a nil slice without error, so the final `errors.Wrap`
wraps nil and the triple is `(nil, nil, nil)`, refuting "returns normally
with either a decoded object or an error". -/
theorem decode_normal_return_without_object_or_error :
    (Decode envNone "configs" (.json .null)).isSome
  ∧ Decode envNone "configs" (.json .null) = some ⟨none, none, none⟩ :=
  ⟨rfl, rfl⟩

/-- C4 (code bug): on the empty JSON array with an unrecognized resource
hint every strategy fails, yet `Decode` returns `(nil, nil, nil)`: the
untyped-array unmarshal succeeds with an empty slice, so the final
`errors.Wrap` wraps a nil error and is itself nil. -/
theorem decode_empty_array_returns_all_nil :
    Decode envNone "widgets" (.json (.arr [])) = some ⟨none, none, none⟩ := rfl

/-- C2 (code bug): the `CustomResourceDefinitionList` case of the stamping
switch stamps each item with the plural kind `"CustomResourceDefinitionList"`
(with the matching apiVersion), not with the singular
`"CustomResourceDefinition"` that the spec states and that every sibling
case uses. -/
theorem crdList_items_stamped_with_plural_kind :
    stampGVK (.customResourceDefinitionList { items := [{ metadata := { name := "widgets.example.com" } }] }) =
      .customResourceDefinitionList
        { items := [{ typeMeta := { kind := "CustomResourceDefinitionList",
                                    apiVersion := "apiextensions.k8s.io/v1" },
                      metadata := { name := "widgets.example.com" } }] }
    ∧ "CustomResourceDefinitionList" ≠ "CustomResourceDefinition" :=
  ⟨rfl, by decide⟩

/-- Helper: a successful unstructured decode always carries a non-empty
kind (the missing-kind check of `UnstructuredJSONScheme`). -/
theorem unstructuredOk_kind_nonempty {j : Json} {u : Unstructured}
    (h : unstructuredFromJson j = .ok u) : getKindU u ≠ "" := by
  cases j with
  | obj fields =>
    simp only [unstructuredFromJson] at h
    by_cases hk : getKindU ⟨fields⟩ = ""
    · rw [if_pos hk] at h
      cases h
    · rw [if_neg hk] at h
      cases h
      exact hk
  | null => cases h
  | bool b => cases h
  | num n => cases h
  | str s => cases h
  | arr xs => cases h

/-- C7: when no typed decode produced an object and `Decode` returns an
untyped (non-list) object, that object carries a non-empty kind - the
unmarshal into `unstructured.Unstructured` rejects objects with an empty
kind, so they are never returned as a successful strategy-3 decode. -/
theorem decode_untyped_object_requires_kind (env : DecodeEnv) (resource : String)
    (data : ByteData) (u : Unstructured) (r : DecodeResult)
    (h1 : env.typedDecode data = none)
    (h2 : wrappedDecode env resource data = none)
    (h3 : Decode env resource data = some r)
    (h4 : r.obj = some (.unstructured u)) :
    getKindU u ≠ "" := by
  unfold Decode at h3
  rw [h1, h2] at h3
  cases hu : unstructuredUnmarshal data with
  | ok v =>
    rw [hu] at h3
    cases h3
    simp only [Option.some.injEq, KObject.unstructured.injEq] at h4
    cases h4
    cases data with
    | json j => exact unstructuredOk_kind_nonempty hu
    | invalid raw => cases hu
  | error e =>
    rw [hu] at h3
    cases hl : unstructuredListUnmarshal data with
    | ok vList =>
      rw [hl] at h3
      cases vList with
      | nil =>
        simp [errWrap] at h3
        subst h3
        simp at h4
      | cons v vs =>
        simp at h3
        subst h3
        simp at h4
    | error e2 =>
      rw [hl] at h3
      simp [errWrap] at h3
      subst h3
      simp at h4

/-- Witness for C7: a bare object with kind `"Pod"` reaches strategy 3,
and the theorem yields that its kind is non-empty. -/
theorem decode_untyped_object_requires_kind_witness :
    getKindU ⟨[("kind", Json.str "Pod")]⟩ ≠ "" :=
  decode_untyped_object_requires_kind envNone "widgets"
    (.json (.obj [("kind", Json.str "Pod")])) ⟨[("kind", Json.str "Pod")]⟩
    ⟨some (.unstructured ⟨[("kind", Json.str "Pod")]⟩),
      some { group := "", version := "", kind := "Pod" }, none⟩
    rfl rfl rfl rfl

/-- Whether a kind string ends in `"List"`. -/
def kindEndsInList (s : String) : Bool :=
  decide (s.data.reverse.take 4 = ['t', 's', 'i', 'L'])

def c5PodJson : Json := .obj [("kind", .str "Pod"), ("apiVersion", .str "v1")]

def c5Data : ByteData := .json (.arr [c5PodJson])

def c5Pod : Unstructured := ⟨[("kind", .str "Pod"), ("apiVersion", .str "v1")]⟩

/-- C5 counterexample: a bare JSON array of pods under an unrecognized
hint is decoded by the untyped-array fallback, and the resulting list's
envelope kind is `"Pod"` - the first element's kind - which does not end
in `"List"`. -/
theorem fallback_list_kind_counterexample :
    Decode envNone "widgets" c5Data =
      some ⟨some (.unstructuredList
          (fallbackList { group := "", version := "v1", kind := "Pod" } [c5Pod])),
        some { group := "", version := "v1", kind := "Pod" }, none⟩
    ∧ getKindList (fallbackList { group := "", version := "v1", kind := "Pod" } [c5Pod]) = "Pod"
    ∧ kindEndsInList "Pod" = false :=
  ⟨rfl, rfl, by decide⟩

/-- Helper: the envelope kind the fallback list is stamped with is exactly
the kind of the GVK passed in. -/
theorem getKindList_fallbackList (g : GroupVersionKind) (l : List Unstructured) :
    getKindList (fallbackList g l) = g.kind := rfl

/-- Helper: `FromAPIVersionAndKind` keeps the kind unchanged on every path. -/
theorem fromAPIVersionAndKind_kind (av k : String) :
    (fromAPIVersionAndKind av k).kind = k := by
  unfold fromAPIVersionAndKind
  cases parseGroupVersion av with
  | some p => rfl
  | none => rfl

/-- C5 (amended): the untyped-array fallback wraps a non-empty decoded
array into an `UnstructuredList` whose envelope GVK is the first element's
GVK - so the envelope kind equals the first item's kind (it ends in
`"List"` only if the item's own kind does), while the items keep their own
fields. -/
theorem fallback_list_carries_first_element_gvk (env : DecodeEnv) (resource : String)
    (data : ByteData) (e : String) (v : Unstructured) (vs : List Unstructured)
    (h1 : env.typedDecode data = none)
    (h2 : wrappedDecode env resource data = none)
    (h3 : unstructuredUnmarshal data = .error e)
    (h4 : unstructuredListUnmarshal data = .ok (v :: vs)) :
    Decode env resource data =
      some ⟨some (.unstructuredList (fallbackList (gvkOfUnstructured v) (v :: vs))),
        some (gvkOfUnstructured v), none⟩
    ∧ getKindList (fallbackList (gvkOfUnstructured v) (v :: vs)) = getKindU v := by
  constructor
  · unfold Decode
    rw [h1, h2, h3, h4]
    simp [fallbackList]
  · rw [getKindList_fallbackList]
    exact fromAPIVersionAndKind_kind _ _

/-- Witness for C5's amended statement at the concrete pod-array payload. -/
theorem fallback_list_carries_first_element_gvk_witness :
    Decode envNone "widgets" c5Data =
      some ⟨some (.unstructuredList (fallbackList (gvkOfUnstructured c5Pod) [c5Pod])),
        some (gvkOfUnstructured c5Pod), none⟩
    ∧ getKindList (fallbackList (gvkOfUnstructured c5Pod) [c5Pod]) = getKindU c5Pod :=
  fallback_list_carries_first_element_gvk envNone "widgets" c5Data
    "cannot unmarshal value into map" c5Pod [] rfl rfl rfl rfl

/-- Erase the type metadata of one typed item. -/
def stripItemTypeMeta (it : Item) : Item := { it with typeMeta := {} }

/-- Erase every item's type metadata of a decoded object, leaving all
other parts (the list's own type and list metadata, each item's object
metadata and remaining payload) untouched. -/
def stripTypeMeta : KObject → KObject
  | .eventList l => .eventList { l with items := l.items.map stripItemTypeMeta }
  | .podList l => .podList { l with items := l.items.map stripItemTypeMeta }
  | .limitRangeList l => .limitRangeList { l with items := l.items.map stripItemTypeMeta }
  | .serviceList l => .serviceList { l with items := l.items.map stripItemTypeMeta }
  | .namespaceList l => .namespaceList { l with items := l.items.map stripItemTypeMeta }
  | .nodeList l => .nodeList { l with items := l.items.map stripItemTypeMeta }
  | .persistentVolumeList l => .persistentVolumeList { l with items := l.items.map stripItemTypeMeta }
  | .persistentVolumeClaimList l => .persistentVolumeClaimList { l with items := l.items.map stripItemTypeMeta }
  | .jobList l => .jobList { l with items := l.items.map stripItemTypeMeta }
  | .cronJobList l => .cronJobList { l with items := l.items.map stripItemTypeMeta }
  | .deploymentList l => .deploymentList { l with items := l.items.map stripItemTypeMeta }
  | .replicaSetList l => .replicaSetList { l with items := l.items.map stripItemTypeMeta }
  | .statefulSetList l => .statefulSetList { l with items := l.items.map stripItemTypeMeta }
  | .storageClassList l => .storageClassList { l with items := l.items.map stripItemTypeMeta }
  | .customResourceDefinitionList l => .customResourceDefinitionList { l with items := l.items.map stripItemTypeMeta }
  | .configMapList l => .configMapList { l with items := l.items.map stripItemTypeMeta }
  | o => o

/-- C10: the stamping pass is a pure frame over item type metadata -
erasing type metadata after stamping gives the same object as erasing it
without stamping (so stamping can only have changed the items' kind and
apiVersion), and the strategy-2 result of `Decode` returns exactly the
typed-decoded object (stamped) with exactly the GVK the typed decode
produced. -/
theorem stampGVK_frame (env : DecodeEnv) (resource : String) (data : ByteData)
    (o : KObject) (gvk : GroupVersionKind) (w : ByteData)
    (h1 : env.typedDecode data = none)
    (h2 : wrapListByteData resource data = .ok w)
    (h3 : env.typedDecode w = some (o, gvk)) :
    stripTypeMeta (stampGVK o) = stripTypeMeta o
    ∧ Decode env resource data = some ⟨some (stampGVK o), some gvk, none⟩ := by
  constructor
  · cases o <;>
      simp [stampGVK, stampList, stripTypeMeta, List.map_map, Function.comp,
        stripItemTypeMeta, setItemGroupVersionKind]
  · have h2' : wrappedDecode env resource data = some (o, gvk) := by
      unfold wrappedDecode
      simp only [h2, h3]
    unfold Decode
    rw [h1, h2']

/-- Witness for C10 at the concrete wrapped pod payload. -/
theorem stampGVK_frame_witness :
    stripTypeMeta (stampGVK demoDecoded) = stripTypeMeta demoDecoded
    ∧ Decode demoEnv "pods" demoData = some ⟨some (stampGVK demoDecoded), some demoGVK, none⟩ :=
  stampGVK_frame demoEnv "pods" demoData demoDecoded demoGVK demoWrapped rfl rfl rfl

/-- The full recognized-hint table of `wrapListData`:
`(resource, kind, apiVersion)` rows, in source order. -/
def wrapTable : List (String × String × String) :=
  [("pods", "PodList", "v1"),
   ("events", "EventList", "v1"),
   ("cronjobs", "CronJobList", "batch/v1beta1"),
   ("deployments", "DeploymentList", "apps/v1"),
   ("ingress", "IngressList", "networking.k8s.io/v1"),
   ("ingresses", "IngressList", "networking.k8s.io/v1"),
   ("jobs", "JobList", "batch/v1"),
   ("limitranges", "LimitRangeList", "v1"),
   ("pvcs", "PersistentVolumeClaimList", "v1"),
   ("replicasets", "ReplicaSetList", "apps/v1"),
   ("services", "ServiceList", "v1"),
   ("statefulsets", "StatefulSetList", "apps/v1"),
   ("namespaces", "NamespaceList", "v1"),
   ("nodes", "NodeList", "v1"),
   ("persistentvolumes", "PersistentVolumeList", "v1"),
   ("persistentvolumeclaims", "PersistentVolumeClaimList", "v1"),
   ("storageclasses", "StorageClassList", "storage.k8s.io/v1"),
   ("customresourcedefinitions", "CustomResourceDefinitionList", "apiextensions.k8s.io/v1")]

/-- C6: for every recognized resource hint, `wrapListData` returns the
envelope with the corresponding `<X>List` kind, that resource's
group/version as apiVersion, the constant `metadata.resourceVersion "1"`,
and the input payload spliced verbatim as `items` (all four are fixed by
`listEnvelope`); for every other hint it returns an error and no data. -/
theorem wrapListData_table (data : String) :
    (∀ p, p ∈ wrapTable → wrapListData p.1 data = .ok (listEnvelope p.2.1 p.2.2 data))
  ∧ (∀ r, r ∉ wrapTable.map Prod.fst →
      wrapListData r data = .error ("do not know how to wrap " ++ r)) := by
  constructor
  · intro p hp
    fin_cases hp <;> rfl
  · intro r hr
    simp only [wrapTable, List.map_cons, List.map_nil, List.mem_cons,
      List.not_mem_nil, or_false, not_or] at hr
    obtain ⟨n1, n2, n3, n4, n5, n6, n7, n8, n9, n10, n11, n12, n13, n14, n15, n16, n17, n18⟩ := hr
    simp [wrapListData, wrapKind, n1, n2, n3, n4, n5, n6, n7, n8, n9, n10,
      n11, n12, n13, n14, n15, n16, n17, n18]

/-- Witness for C6's unrecognized-hint case at a concrete hint. -/
theorem wrapListData_table_witness :
    wrapListData "widgets" "[]" = .error ("do not know how to wrap " ++ "widgets") :=
  (wrapListData_table "[]").2 "widgets" (by decide)

/-- Nondecreasing-by-timestamp: the second item is not strictly before the
first (the only order the comparator of `SortUnstructuredList` can
establish). -/
def tsLE (a b : Unstructured) : Prop := uBefore b a = false

/-- Helper: lexicographic strict order is asymmetric. -/
theorem charListLt_asymm {x : List Char} :
    ∀ {y}, charListLt x y = true → charListLt y x = false := by
  induction x with
  | nil =>
    intro y h
    cases y with
    | nil => simp [charListLt] at h
    | cons b bs => simp [charListLt]
  | cons a as ih =>
    intro y h
    cases y with
    | nil => simp [charListLt] at h
    | cons b bs =>
      simp only [charListLt] at h ⊢
      rcases lt_trichotomy a b with hab | hab | hab
      · rw [if_neg (lt_asymm hab), if_pos hab]
      · subst hab
        rw [if_neg (lt_irrefl a), if_neg (lt_irrefl a)] at h
        rw [if_neg (lt_irrefl a), if_neg (lt_irrefl a)]
        exact ih h
      · rw [if_neg (lt_asymm hab), if_pos hab] at h
        cases h

/-- Helper: lexicographic strict order is transitive. -/
theorem charListLt_trans {x : List Char} :
    ∀ {y z}, charListLt x y = true → charListLt y z = true → charListLt x z = true := by
  induction x with
  | nil =>
    intro y z h1 h2
    cases y with
    | nil => simp [charListLt] at h1
    | cons b bs =>
      cases z with
      | nil => simp [charListLt] at h2
      | cons c cs => simp [charListLt]
  | cons a as ih =>
    intro y z h1 h2
    cases y with
    | nil => simp [charListLt] at h1
    | cons b bs =>
      cases z with
      | nil => simp [charListLt] at h2
      | cons c cs =>
        simp only [charListLt] at h1 h2 ⊢
        rcases lt_trichotomy a b with hab | hab | hab
        · rcases lt_trichotomy b c with hbc | hbc | hbc
          · rw [if_pos (lt_trans hab hbc)]
          · subst hbc
            rw [if_pos hab]
          · rw [if_neg (lt_asymm hbc), if_pos hbc] at h2
            cases h2
        · subst hab
          rcases lt_trichotomy a c with hac | hac | hac
          · rw [if_pos hac]
          · subst hac
            rw [if_neg (lt_irrefl a), if_neg (lt_irrefl a)] at h1 h2 ⊢
            exact ih h1 h2
          · rw [if_neg (lt_asymm hac), if_pos hac] at h2
            cases h2
        · rw [if_neg (lt_asymm hab), if_pos hab] at h1
          cases h1

/-- Helper: one Go insertion step is the inserted element plus the old
list, up to permutation. -/
theorem orderedInsertGo_perm (x : Unstructured) (l : List Unstructured) :
    (orderedInsertGo x l).Perm (x :: l) := by
  induction l with
  | nil => exact List.Perm.refl _
  | cons y ys ih =>
    unfold orderedInsertGo
    by_cases h : uBefore x y = true
    · rw [if_pos h]
    · rw [if_neg h]
      exact (ih.cons y).trans (List.Perm.swap x y ys)

/-- Helper: inserting into a timestamp-sorted list keeps it sorted. -/
theorem orderedInsertGo_pairwise (x : Unstructured) (l : List Unstructured)
    (h : l.Pairwise tsLE) : (orderedInsertGo x l).Pairwise tsLE := by
  induction l with
  | nil => simp [orderedInsertGo, tsLE]
  | cons y ys ih =>
    rcases List.pairwise_cons.mp h with ⟨hy, hys⟩
    unfold orderedInsertGo
    cases hb : uBefore x y with
    | true =>
      rw [if_pos rfl]
      refine List.Pairwise.cons ?_ h
      intro z hz
      rcases List.mem_cons.mp hz with rfl | hz'
      · exact charListLt_asymm hb
      · have hyz := hy z hz'
        cases hq : uBefore z x with
        | false => exact hq
        | true =>
          have htrans := charListLt_trans hq hb
          simp only [tsLE, uBefore] at hyz
          rw [hyz] at htrans
          cases htrans
    | false =>
      rw [if_neg (by simp)]
      refine List.Pairwise.cons ?_ (ih hys)
      intro z hz
      rcases List.mem_cons.mp ((orderedInsertGo_perm x ys).mem_iff.mp hz) with rfl | hz'
      · exact hb
      · exact hy z hz'

/-- Helper: the fold of insertion steps permutes the input (with the
accumulator appended). -/
theorem sortSliceGo_aux_perm (l acc : List Unstructured) :
    (l.foldl (fun a x => orderedInsertGo x a) acc).Perm (l ++ acc) := by
  induction l generalizing acc with
  | nil => exact List.Perm.refl _
  | cons x xs ih =>
    exact (ih (orderedInsertGo x acc)).trans
      (((orderedInsertGo_perm x acc).append_left xs).trans List.perm_middle)

/-- Helper: the result of `sortSliceGo` is a permutation of the input. -/
theorem sortSliceGo_perm (l : List Unstructured) : (sortSliceGo l).Perm l := by
  have h := sortSliceGo_aux_perm l []
  simpa using h

/-- Helper: the fold of insertion steps keeps the accumulator sorted. -/
theorem sortSliceGo_aux_pairwise (l acc : List Unstructured)
    (h : acc.Pairwise tsLE) :
    (l.foldl (fun a x => orderedInsertGo x a) acc).Pairwise tsLE := by
  induction l generalizing acc with
  | nil => exact h
  | cons x xs ih => exact ih _ (orderedInsertGo_pairwise x acc h)

/-- C3 (amended): `SortUnstructuredList` returns a permutation of the
items that is nondecreasing in creation timestamp, with a missing
timestamp read as the zero time; the comparator consults only the
timestamp, so nothing orders equal-timestamp items by (namespace, name). -/
theorem sortUnstructuredList_sorts_by_timestamp (list : UnstructuredList) :
    ((SortUnstructuredList list).items).Perm list.items
  ∧ ((SortUnstructuredList list).items).Pairwise tsLE
  ∧ (∀ u : Unstructured, lookupField u.object "metadata" = none →
      getCreationTimestamp u = "") := by
  refine ⟨sortSliceGo_perm list.items,
    sortSliceGo_aux_pairwise list.items [] List.Pairwise.nil, ?_⟩
  intro u hu
  unfold getCreationTimestamp getMetadataField
  rw [hu]

/-- Witness for C3's amended statement: the missing-metadata case at a
concrete item. -/
theorem sortUnstructuredList_sorts_by_timestamp_witness :
    getCreationTimestamp ⟨[]⟩ = "" :=
  (sortUnstructuredList_sorts_by_timestamp {}).2.2 ⟨[]⟩ rfl

/-- Two items with the same creation timestamp whose (namespace, name)
order is the reverse of their input order. -/
def uTieA : Unstructured :=
  ⟨[("metadata", .obj [("name", .str "b"), ("namespace", .str "b-ns"),
      ("creationTimestamp", .str "2023-01-01T00:00:00Z")])]⟩

def uTieB : Unstructured :=
  ⟨[("metadata", .obj [("name", .str "a"), ("namespace", .str "a-ns"),
      ("creationTimestamp", .str "2023-01-01T00:00:00Z")])]⟩

/-- C3 counterexample: for two items with equal timestamps the sort leaves
the input order unchanged, so ties are not ordered by (namespace, name)
- `uTieB` precedes `uTieA` in that order yet stays second - and the two
input orderings of the same multiset produce different outputs. -/
theorem sortUnstructuredList_tie_counterexample :
    getCreationTimestamp uTieA = getCreationTimestamp uTieB
  ∧ charListLt (getNamespaceU uTieB).data (getNamespaceU uTieA).data = true
  ∧ charListLt (getNameU uTieB).data (getNameU uTieA).data = true
  ∧ (SortUnstructuredList { items := [uTieA, uTieB] }).items = [uTieA, uTieB]
  ∧ (SortUnstructuredList { items := [uTieB, uTieA] }).items = [uTieB, uTieA]
  ∧ getNameU uTieA ≠ getNameU uTieB :=
  ⟨rfl, by decide, by decide, rfl, rfl, by decide⟩
